import Mathlib

/-!
Verification of the audio capture pipeline (hand-off queue, history ring
buffer, timestamp anchoring, MP3 streaming encoder) against a shallow
embedding of `src/audio_stream.{hpp,cpp}` and `src/mp3_encoder.cpp`.

Machine integers (`int64_t` timestamps, codec return codes) are modelled as
`Int`; none of the embedded functions performs arithmetic that can overflow
an `int64_t` on the inputs considered, so no wrap-around is applied.  The
C++ `double` arithmetic in timestamp computation is modelled as exact
rational arithmetic (`ℚ`), with truncation toward zero at each
`duration_cast`, as in `std::chrono`.
-/

namespace Microphone

/-! ## Definitions -/

/-- Capacity of the boost spsc lock-free queue
(`boost::lockfree::capacity<100>`, audio_stream.hpp line 30). -/
def queueCapacity : Nat := 100

/-- The constant INT64_MAX, the initial value of `oldest` in
`get_available_time_range`. -/
def int64Max : Int := 9223372036854775807

/-- The value `paContinue` returned by the PortAudio callback. -/
def paContinue : Int := 0

/-- Truncation of a rational toward zero: the semantics of
`static_cast<int64_t>` on a `double`, which is what
`std::chrono::duration_cast` applies to a `duration<double>` count. -/
def ratTrunc (q : ℚ) : Int := if 0 ≤ q then ⌊q⌋ else ⌈q⌉

/-- Conversion of seconds to integer nanoseconds as
`duration_cast<nanoseconds>(duration<double>(s))` performs it, truncating toward zero. -/
def secondsToNs (s : ℚ) : Int := ratTrunc (s * 1000000000)

/-- The fields of `viam::sdk::audio_info` used by the embedded code
(the codec identifier is carried around but never inspected, so it is
omitted). -/
structure AudioInfo where
  sample_rate_hz : Nat
  num_channels : Nat
  deriving DecidableEq

/-- An audio chunk (`viam::sdk::AudioIn::audio_chunk`): interleaved 16-bit samples plus
start/end timestamps in nanoseconds since the Unix epoch. -/
structure Chunk where
  audio_data : List Int
  info : AudioInfo
  start_timestamp_ns : Int
  end_timestamp_ns : Int
  deriving DecidableEq

/-- A default-constructed `audio_chunk` (what `std::vector::resize` puts in
each history slot): empty data, zero timestamps.  Start timestamp 0 is the
"empty slot" sentinel. -/
def emptyChunk (info : AudioInfo) : Chunk :=
  { audio_data := [], info := info, start_timestamp_ns := 0, end_timestamp_ns := 0 }

/-- The stream context `microphone::AudioStreamContext` (audio_stream.hpp lines 27-52).
The spsc queue is modelled as a list (front = oldest); the two atomics are
plain Booleans since all accesses relevant to the verified claims happen on
one thread at a time; `stream_start_time` is its nanoseconds-since-epoch
count. -/
structure AudioStreamContext where
  lockfree_queue : List Chunk
  history_buffer : List Chunk
  history_write_index : Nat
  history_capacity : Nat
  info : AudioInfo
  working_buffer : List Int
  samples_per_chunk : Nat
  current_sample_count : Nat
  stream_start_time_ns : Int
  current_chunk_start_ns : Int
  first_callback_adc_time : ℚ
  first_callback_captured : Bool
  is_recording : Bool
  deriving DecidableEq

namespace AudioStreamContext

/-- The `AudioStreamContext` constructor (audio_stream.cpp lines 9-26):
pre-allocates the working buffer (`samples_per_chunk * num_channels`
zero samples) and the history buffer (`history_capacity` default chunks).
`stream_start_time` is left at the epoch until the first callback. -/
def init (audio_info : AudioInfo) (samples_per_chunk : Nat)
    (history_capacity : Nat := 100) : AudioStreamContext :=
  { lockfree_queue := []
    history_buffer := List.replicate history_capacity (emptyChunk audio_info)
    history_write_index := 0
    history_capacity := history_capacity
    info := audio_info
    working_buffer := List.replicate (samples_per_chunk * audio_info.num_channels) 0
    samples_per_chunk := samples_per_chunk
    current_sample_count := 0
    stream_start_time_ns := 0
    current_chunk_start_ns := 0
    first_callback_adc_time := 0
    first_callback_captured := false
    is_recording := true }

/-- Method `AudioStreamContext::push_chunk` (audio_stream.hpp lines 61-63):
`spsc_queue::push` succeeds only when the queue holds fewer than
`queueCapacity` elements; on a full queue the chunk is silently dropped. -/
def push_chunk (ctx : AudioStreamContext) (chunk : Chunk) : AudioStreamContext :=
  if ctx.lockfree_queue.length < queueCapacity then
    { ctx with lockfree_queue := ctx.lockfree_queue ++ [chunk] }
  else ctx

/-- The pop-and-record loop inside `get_new_chunks` (audio_stream.cpp
lines 32-43): pop every queued chunk, write it into the history ring at the
write cursor, advance the cursor modulo capacity, and collect it. -/
def drainLoop : List Chunk → List Chunk → Nat → Nat →
    List Chunk × List Chunk × Nat
  | [], hist, w, _cap => ([], hist, w)
  | c :: rest, hist, w, cap =>
      let hist' := hist.set w c
      let w' := (w + 1) % cap
      let (res, hist'', w'') := drainLoop rest hist' w' cap
      (c :: res, hist'', w'')

/-- Method `AudioStreamContext::get_new_chunks` (audio_stream.cpp lines 28-46):
drains the lock-free queue, recording each popped chunk into the history
buffer, and returns the popped chunks oldest first. -/
def get_new_chunks (ctx : AudioStreamContext) :
    List Chunk × AudioStreamContext :=
  let (res, hist, w) :=
    drainLoop ctx.lockfree_queue ctx.history_buffer ctx.history_write_index
      ctx.history_capacity
  (res, { ctx with lockfree_queue := [], history_buffer := hist,
                   history_write_index := w })

/-- Method `AudioStreamContext::get_chunks_from_timestamp` (audio_stream.cpp
lines 48-72): linear scan of all `history_capacity` slots; skips slots whose
start timestamp is the 0 sentinel; collects (copies) every chunk whose start
timestamp lies in `[start_timestamp_ns, end_timestamp_ns)`. -/
def get_chunks_from_timestamp (ctx : AudioStreamContext)
    (start_timestamp_ns : Int) (end_timestamp_ns : Int := int64Max) :
    List Chunk :=
  (List.range ctx.history_capacity).foldl
    (fun result i =>
      let chunk := ctx.history_buffer.getD i (emptyChunk ctx.info)
      if chunk.start_timestamp_ns = 0 then result
      else if start_timestamp_ns ≤ chunk.start_timestamp_ns ∧
          chunk.start_timestamp_ns < end_timestamp_ns then
        result ++ [chunk]
      else result)
    []

/-- Method `AudioStreamContext::get_available_time_range` (audio_stream.cpp
lines 74-97): scans all `history_capacity` slots accumulating
`oldest := min` of start timestamps (initially `INT64_MAX`) and
`newest := max` of end timestamps (initially `0`) over non-sentinel slots;
returns `(0, 0)` when `oldest` is still `INT64_MAX`. -/
def get_available_time_range (ctx : AudioStreamContext) : Int × Int :=
  let p := (List.range ctx.history_capacity).foldl
    (fun (acc : Int × Int) i =>
      let chunk := ctx.history_buffer.getD i (emptyChunk ctx.info)
      if chunk.start_timestamp_ns = 0 then acc
      else (min acc.1 chunk.start_timestamp_ns, max acc.2 chunk.end_timestamp_ns))
    (int64Max, 0)
  if p.1 = int64Max then (0, 0) else p

end AudioStreamContext

/-- Function `microphone::calculate_sample_timestamp` (audio_stream.cpp
lines 192-209): absolute wall-clock timestamp of sample `sample_index` of a
delivery that started `seconds_since_stream_start` device-clock seconds
after the anchor: `stream_start_time` plus the elapsed seconds converted to
nanoseconds. -/
def calculate_sample_timestamp (ctx : AudioStreamContext)
    (seconds_since_stream_start : ℚ) (sample_index : Nat) : Int :=
  let seconds_per_sample : ℚ := 1 / (ctx.info.sample_rate_hz : ℚ)
  let sample_elapsed_seconds :=
    seconds_since_stream_start + (sample_index : ℚ) * seconds_per_sample
  ctx.stream_start_time_ns + secondsToNs sample_elapsed_seconds

/-- The inner `for ch` loop of the callback: copy the `nc` channel samples
of one frame from the interleaved input (at offset `src_off`) into the
working buffer (at offset `dst_off`).  Out-of-range reads yield 0. -/
def writeFrame (wb : List Int) (input : List Int) (dst_off src_off nc : Nat) :
    List Int :=
  (List.range nc).foldl
    (fun wb ch => wb.set (dst_off + ch) (input.getD (src_off + ch) 0)) wb

/-- The `while (i < framesPerBuffer)` loop of `AudioCallback`
(audio_stream.cpp lines 138-187): per frame, record the chunk start
timestamp when a new chunk begins, copy the frame into the working buffer,
bump the accumulated count, and on a full chunk build it (copy of the
working buffer, format descriptor, start timestamp, end = start + chunk
duration), push it to the queue and reset the count. -/
def callbackLoop (input : List Int) (framesPerBuffer : Nat)
    (seconds_since_stream_start : ℚ) (i : Nat) (ctx : AudioStreamContext) :
    AudioStreamContext :=
  if h : i < framesPerBuffer then
    let ctx1 := if ctx.current_sample_count = 0 then
        { ctx with current_chunk_start_ns :=
            calculate_sample_timestamp ctx seconds_since_stream_start i }
      else ctx
    let nc := ctx1.info.num_channels
    let wb := writeFrame ctx1.working_buffer input
      (ctx1.current_sample_count * nc) (i * nc) nc
    let ctx2 := { ctx1 with working_buffer := wb }
    let ctx3 := { ctx2 with current_sample_count := ctx2.current_sample_count + 1 }
    let ctx4 :=
      if ctx3.current_sample_count = ctx3.samples_per_chunk then
        let total_samples := ctx3.samples_per_chunk * ctx3.info.num_channels
        let chunk : Chunk :=
          { audio_data := ctx3.working_buffer.take total_samples
            info := ctx3.info
            start_timestamp_ns := ctx3.current_chunk_start_ns
            end_timestamp_ns := ctx3.current_chunk_start_ns +
              secondsToNs ((ctx3.samples_per_chunk : ℚ) /
                (ctx3.info.sample_rate_hz : ℚ)) }
        { ctx3.push_chunk chunk with current_sample_count := 0 }
      else ctx3
    callbackLoop input framesPerBuffer seconds_since_stream_start (i + 1) ctx4
  else ctx
termination_by framesPerBuffer - i

/-- Function `microphone::AudioCallback` (audio_stream.cpp lines 109-190).  The
`inputBuffer` pointer is an `Option`; the wall-clock reading that the C++
takes from `std::chrono::system_clock::now()` on the first callback is the
parameter `now_ns`.  Returns the PortAudio status together with the updated
context. -/
def AudioCallback (inputBuffer : Option (List Int)) (framesPerBuffer : Nat)
    (inputBufferAdcTime : ℚ) (now_ns : Int) (ctx : AudioStreamContext) :
    Int × AudioStreamContext :=
  match inputBuffer with
  | none => (paContinue, ctx)
  | some input =>
      if ctx.is_recording = false then (paContinue, ctx)
      else
        let ctx0 := if ctx.first_callback_captured = false then
            { ctx with first_callback_adc_time := inputBufferAdcTime,
                       stream_start_time_ns := now_ns,
                       first_callback_captured := true }
          else ctx
        let secs := inputBufferAdcTime - ctx0.first_callback_adc_time
        (paContinue, callbackLoop input framesPerBuffer secs 0 ctx0)

/-- Pushing onto the queue list alone (the queue component of
`push_chunk`). -/
def pushQ (q : List Chunk) (c : Chunk) : List Chunk :=
  if q.length < queueCapacity then q ++ [c] else q

/-- The body of the `get_chunks_from_timestamp` scan, as a function of the
slot contents. -/
def queryStep (s e : Int) (result : List Chunk) (chunk : Chunk) : List Chunk :=
  if chunk.start_timestamp_ns = 0 then result
  else if s ≤ chunk.start_timestamp_ns ∧ chunk.start_timestamp_ns < e then
    result ++ [chunk]
  else result

/-- The body of the `get_available_time_range` scan, as a function of the
slot contents. -/
def avStep (acc : Int × Int) (chunk : Chunk) : Int × Int :=
  if chunk.start_timestamp_ns = 0 then acc
  else (min acc.1 chunk.start_timestamp_ns, max acc.2 chunk.end_timestamp_ns)

/-- The non-sentinel slots of the history buffer. -/
def nonEmptySlots (ctx : AudioStreamContext) : List Chunk :=
  ctx.history_buffer.filter (fun c => decide (c.start_timestamp_ns ≠ 0))

/-- The availability range exactly as the claim words it ("minimum start
timestamp, maximum end timestamp taken over all non-empty slots", `(0, 0)`
when every slot is empty); kept for comparison with the code's fold. -/
def claimedAvailableRange (ctx : AudioStreamContext) : Int × Int :=
  match nonEmptySlots ctx with
  | [] => (0, 0)
  | c :: rest =>
      (rest.foldl (fun m x => min m x.start_timestamp_ns) c.start_timestamp_ns,
       rest.foldl (fun m x => max m x.end_timestamp_ns) c.end_timestamp_ns)

/-- A concrete stream format used by the concrete evaluation theorems:
44100 Hz, one channel. -/
def infoW : AudioInfo := { sample_rate_hz := 44100, num_channels := 1 }

/-- A chunk with no payload and the given timestamps, used to populate
concrete history buffers. -/
def chunkAt (s e : Int) : Chunk :=
  { audio_data := [], info := infoW, start_timestamp_ns := s,
    end_timestamp_ns := e }

/-- A context whose history buffer holds chunks starting at 1 s, 2 s and 3 s
(each 100 ms long), the configuration of the spec's worked example. -/
def ctxHist : AudioStreamContext :=
  { AudioStreamContext.init infoW 4410 3 with
      history_buffer := [chunkAt 1000000000 1100000000,
                         chunkAt 2000000000 2100000000,
                         chunkAt 3000000000 3100000000] }

/-- A context whose single history slot holds a chunk with negative
timestamps (start −10 ns, end −5 ns: a representable `int64_t` state). -/
def ctxNeg : AudioStreamContext :=
  { AudioStreamContext.init infoW 4410 1 with
      history_buffer := [chunkAt (-10) (-5)] }

/-- A freshly constructed context with its stream start anchored at 5 ns
since the epoch, used to evaluate the timestamp formula concretely. -/
def ctxAnchor : AudioStreamContext :=
  { AudioStreamContext.init infoW 4410 3 with stream_start_time_ns := 5 }

/-- A context with recording disabled, used to evaluate the callback's
early-return path concretely. -/
def ctxStopped : AudioStreamContext :=
  { AudioStreamContext.init infoW 4410 3 with is_recording := false }

/-- Status `AVERROR(EAGAIN)`: the codec's "need more input before output is
available" status (EAGAIN is 11 on Linux, and `AVERROR` negates it). -/
def AVERROR_EAGAIN : Int := -11

/-- Status `AVERROR_EOF`: the codec's end-of-stream status
(`FFERRTAG('E','O','F',' ')`). -/
def AVERROR_EOF : Int := -541478725

/-- An abstract model of the libavcodec MP3 codec session, the external
collaborator of mp3_encoder.cpp.  `σ` is the codec's internal state;
`send_frame` submits a planar frame (`none` is the end-of-stream signal)
and reports a status; `receive_packet` polls for one encoded packet,
reporting a status (0 = packet available, with its bytes). -/
structure CodecModel (σ : Type) where
  send_frame : σ → Option (List (List Int)) → σ × Int
  receive_packet : σ → σ × Int × List Int

/-- The encoder state `microphone::MP3EncoderState` as used throughout mp3_encoder.cpp (its
declaring header is not part of the sources; the fields are exactly those
the .cpp and its tests read and write).  The codec session and reusable
frame are owning pointers, `none` while uninitialized; `frame_size` stands
for `encoder_ctx->frame_size` (1152 after initialization); `buffer` is the
accumulation buffer of interleaved not-yet-encoded samples. -/
structure MP3EncoderState (σ : Type) where
  encoder_ctx : Option σ
  frame : Option (List (List Int))
  frame_size : Nat
  buffer : List Int
  sample_rate : Nat
  num_channels : Nat
  deriving DecidableEq

/-- Helper `deinterleave_samples` (mp3_encoder.cpp lines 14-24): plane `ch` holds
`interleaved[i * num_channels + ch]` for `i < frame_size`. -/
def deinterleave_samples (interleaved : List Int)
    (frame_size num_channels : Nat) : List (List Int) :=
  (List.range num_channels).map (fun ch =>
    (List.range frame_size).map (fun i =>
      interleaved.getD (i * num_channels + ch) 0))

/-- The `while (avcodec_receive_packet(...) == 0)` loop of
`encode_mp3_samples` (lines 109-112): collect packet bytes until a nonzero
status, returning the final status.  `fuel` bounds the number of polls: the
model assumes the codec holds at most `fuel` buffered packets per
submission, and reports "need more input" once the bound is reached. -/
def drainPackets {σ : Type} (M : CodecModel σ) :
    Nat → σ → List Int → σ × List Int × Int
  | 0, s, acc => (s, acc, AVERROR_EAGAIN)
  | fuel + 1, s, acc =>
      let r := M.receive_packet s
      if r.2.1 = 0 then drainPackets M fuel r.1 (acc ++ r.2.2)
      else (r.1, acc, r.2.1)

/-- The `while (state.buffer.size() >= samples_per_frame)` loop of
`encode_mp3_samples` (lines 89-118).  Per iteration: de-interleave the
first frame's worth of buffered samples into the reusable frame, submit it
(`avcodec_send_frame`; a negative status throws, with the state as mutated
so far), erase those samples from the buffer, drain ready packets into the
output, and log when the final polling status is neither
`AVERROR(EAGAIN)` nor `AVERROR_EOF`.  Result:
(codec state, frame, buffer, output bytes, log, thrown error).
`iterFuel` bounds the iteration count; the caller passes the buffer
length, which bounds the true iteration count whenever
`samples_per_frame > 0` (with `samples_per_frame = 0` the C++ loop would
never terminate). -/
def encodeFrames {σ : Type} (M : CodecModel σ) (fuel : Nat)
    (samples_per_frame frame_size num_channels : Nat) :
    Nat → σ → List (List Int) → List Int → List Int → List String →
      σ × List (List Int) × List Int × List Int × List String × Option String
  | 0, s, frame, buf, out, log => (s, frame, buf, out, log, none)
  | iterFuel + 1, s, frame, buf, out, log =>
      if samples_per_frame ≤ buf.length then
        let frame' := deinterleave_samples buf frame_size num_channels
        let sc := M.send_frame s (some frame')
        if sc.2 < 0 then
          (sc.1, frame', buf, out, log, some ("Error sending frame to MP3 encoder"))
        else
          let dp := drainPackets M fuel sc.1 []
          let log1 := if dp.2.2 ≠ AVERROR_EAGAIN ∧ dp.2.2 ≠ AVERROR_EOF then
              log ++ ["MP3 encoder error"]
            else log
          encodeFrames M fuel samples_per_frame frame_size num_channels
            iterFuel dp.1 frame' (buf.drop samples_per_frame)
            (out ++ dp.2.1) log1
      else (s, frame, buf, out, log, none)

/-- Function `encode_mp3_samples` (mp3_encoder.cpp lines 75-119).  Returns the
updated state, the bytes appended to `output_data`, the warnings logged,
and `some message` exactly when the C++ call throws (the state as of the
throw is returned alongside, since the exception aborts the call with the
object in that condition). -/
def encode_mp3_samples {σ : Type} (M : CodecModel σ) (fuel : Nat)
    (state : MP3EncoderState σ) (samples : List Int) :
    MP3EncoderState σ × List Int × List String × Option String :=
  match state.encoder_ctx, state.frame with
  | some s, some frame =>
      let buf := state.buffer ++ samples
      let samples_per_frame := state.frame_size * state.num_channels
      let r := encodeFrames M fuel samples_per_frame state.frame_size
        state.num_channels buf.length s frame buf [] []
      ({ state with encoder_ctx := some r.1, frame := some r.2.1,
                    buffer := r.2.2.1 },
       r.2.2.2.1, r.2.2.2.2.1, r.2.2.2.2.2)
  | _, _ => (state, [], [], some ("MP3 encoder not initialized"))

/-- The counting `while (avcodec_receive_packet(...) == 0)` loop of
`flush_mp3_encoder` (lines 136-139): packets are counted and discarded. -/
def flushDrain {σ : Type} (M : CodecModel σ) : Nat → σ → Nat → σ × Nat
  | 0, s, n => (s, n)
  | fuel + 1, s, n =>
      let r := M.receive_packet s
      if r.2.1 = 0 then flushDrain M fuel r.1 (n + 1) else (r.1, n)

/-- The packets the codec yields under repeated polling (at most `fuel`
polls): the reference sequence against which `flush`'s counter is
checked. -/
def collectPackets {σ : Type} (M : CodecModel σ) : Nat → σ → List (List Int)
  | 0, _ => []
  | fuel + 1, s =>
      let r := M.receive_packet s
      if r.2.1 = 0 then r.2.2 :: collectPackets M fuel r.1 else []

/-- Function `flush_mp3_encoder` (mp3_encoder.cpp lines 121-151): a no-op returning
0 on an uninitialized encoder; otherwise submits the end-of-stream
`nullptr` frame (its status is ignored), counts and discards the remaining
packets, logs the count when positive and reports the leftover sub-frame
samples when the accumulation buffer is non-empty, and returns the packet
count.  The accumulation buffer itself is left in place (only cleanup
clears it); its samples are never submitted to the codec. -/
def flush_mp3_encoder {σ : Type} (M : CodecModel σ) (fuel : Nat)
    (state : MP3EncoderState σ) : MP3EncoderState σ × Int × List String :=
  match state.encoder_ctx with
  | none => (state, 0, [])
  | some s =>
      let s1 := (M.send_frame s none).1
      let r := flushDrain M fuel s1 0
      let log1 := if 0 < r.2 then ["MP3 encoder flushed remaining packets"]
        else []
      let log2 := if state.buffer ≠ [] then
          ["Discarded unbuffered samples at end of stream"]
        else []
      ({ state with encoder_ctx := some r.1 }, (r.2 : Int), log1 ++ log2)

/-- A toy codec used for concrete evaluation: the state counts frames it
has buffered; every submission is accepted; each poll emits one two-byte
packet while frames remain, then reports "need more input". -/
def toyCodec : CodecModel Nat :=
  { send_frame := fun s _f => (s + 1, 0)
    receive_packet := fun s =>
      match s with
      | 0 => (0, AVERROR_EAGAIN, [])
      | k + 1 => (k, 0, [7, 7]) }

/-- A codec that accepts every submission but never yields output. -/
def okCodec : CodecModel Nat :=
  { send_frame := fun s _f => (s, 0)
    receive_packet := fun s => (s, AVERROR_EAGAIN, []) }

/-- A codec whose frame submission always reports a negative status. -/
def sendFailCodec : CodecModel Nat :=
  { send_frame := fun s _f => (s, -1)
    receive_packet := fun s => (s, AVERROR_EAGAIN, []) }

/-- A Ready encoder state over the toy codecs: two samples per frame, one
channel, empty accumulation buffer. -/
def readyState : MP3EncoderState Nat :=
  { encoder_ctx := some 0, frame := some [[0, 0]], frame_size := 2,
    buffer := [], sample_rate := 48000, num_channels := 1 }

/-- A Ready encoder state whose codec has 2 packets still buffered and
whose accumulation buffer holds one leftover sub-frame sample. -/
def flushState : MP3EncoderState Nat :=
  { encoder_ctx := some 2, frame := some [[0, 0]], frame_size := 2,
    buffer := [5], sample_rate := 48000, num_channels := 1 }

/-- An encoder state on which initialization has not succeeded (the
baseline cleanup leaves behind, mp3_encoder.cpp lines 153-161). -/
def uninitState : MP3EncoderState Nat :=
  { encoder_ctx := none, frame := none, frame_size := 0,
    buffer := [], sample_rate := 0, num_channels := 0 }

/-! ## Theorems -/

theorem push_chunk_queue (ctx : AudioStreamContext) (c : Chunk) :
    (ctx.push_chunk c).lockfree_queue = pushQ ctx.lockfree_queue c := by
  unfold AudioStreamContext.push_chunk pushQ
  split <;> rfl

theorem foldl_push_queue (cs : List Chunk) (ctx : AudioStreamContext) :
    (cs.foldl AudioStreamContext.push_chunk ctx).lockfree_queue =
      cs.foldl pushQ ctx.lockfree_queue := by
  induction cs generalizing ctx with
  | nil => rfl
  | cons c rest ih =>
      simp only [List.foldl_cons, ih, push_chunk_queue]

theorem foldl_pushQ_of_le (cs : List Chunk) (q : List Chunk)
    (h : q.length ≤ queueCapacity) :
    cs.foldl pushQ q = q ++ cs.take (queueCapacity - q.length) := by
  induction cs generalizing q with
  | nil => simp
  | cons c rest ih =>
      by_cases hfull : q.length < queueCapacity
      · have hstep : pushQ q c = q ++ [c] := by simp [pushQ, hfull]
        have hlen : (q ++ [c]).length ≤ queueCapacity := by
          simp only [List.length_append, List.length_singleton]
          omega
        have := ih (q ++ [c]) hlen
        simp only [List.foldl_cons, hstep, this, List.length_append,
          List.length_singleton, List.append_assoc]
        have hsub : queueCapacity - q.length = (queueCapacity - (q.length + 1)) + 1 := by
          omega
        rw [hsub, List.take_succ_cons]
        simp
      · have hq : q.length = queueCapacity := by omega
        have hstep : pushQ q c = q := by simp [pushQ, hfull]
        have := ih q h
        simp only [List.foldl_cons, hstep, this, hq]
        simp

theorem drainLoop_result (q hist : List Chunk) (w cap : Nat) :
    (AudioStreamContext.drainLoop q hist w cap).1 = q := by
  induction q generalizing hist w with
  | nil => rfl
  | cons c rest ih =>
      simp only [AudioStreamContext.drainLoop]
      exact congrArg (c :: ·) (ih _ _)

/-- C1: starting from an initially empty hand-off queue (a freshly
constructed stream context), any sequence of `N` pushes followed by one
drain yields exactly the first `min N 100` pushed chunks in push order
(pushes beyond capacity are dropped silently, with no error to the
producer), and an immediately subsequent drain yields the empty sequence. -/
theorem handoff_queue_push_drain (audio_info : AudioInfo)
    (samples_per_chunk : Nat) (cs : List Chunk) :
    ((cs.foldl AudioStreamContext.push_chunk
        (AudioStreamContext.init audio_info samples_per_chunk)).get_new_chunks).1 =
      cs.take (min cs.length queueCapacity) ∧
    (((cs.foldl AudioStreamContext.push_chunk
        (AudioStreamContext.init audio_info samples_per_chunk)).get_new_chunks).2.get_new_chunks).1 =
      [] := by
  set ctx0 := AudioStreamContext.init audio_info samples_per_chunk with hctx0
  have hq0 : ctx0.lockfree_queue = [] := rfl
  have hqueue : (cs.foldl AudioStreamContext.push_chunk ctx0).lockfree_queue =
      cs.take queueCapacity := by
    rw [foldl_push_queue, hq0]
    have := foldl_pushQ_of_le cs [] (by simp [queueCapacity])
    simpa using this
  constructor
  · show (AudioStreamContext.drainLoop _ _ _ _).1 = _
    rw [hqueue, drainLoop_result, List.take_eq_take]
    omega
  · simp only [AudioStreamContext.get_new_chunks, drainLoop_result]

/-- Iterating over `List.range l.length` and reading `l.getD i` is the same
as folding over `l` itself (the shape shared by the two history-buffer
scans, whose loops run over slot indices `0 ≤ i < capacity`). -/
theorem range_foldl_getD {α β : Type} (f : β → α → β) (l : List α) (d : α)
    (b : β) :
    (List.range l.length).foldl (fun acc i => f acc (l.getD i d)) b =
      l.foldl f b := by
  induction l using List.reverseRecOn generalizing b with
  | nil => rfl
  | append_singleton l a ih =>
      rw [List.length_append, List.length_singleton, List.range_succ,
        List.foldl_append, List.foldl_append]
      have hmem : ∀ (acc : β) (i : Nat), i ∈ List.range l.length →
          f acc ((l ++ [a]).getD i d) = f acc (l.getD i d) := by
        intro acc i hi
        rw [List.mem_range] at hi
        rw [List.getD_append _ _ _ _ hi]
      have hext : (List.range l.length).foldl
            (fun acc i => f acc ((l ++ [a]).getD i d)) b =
          (List.range l.length).foldl (fun acc i => f acc (l.getD i d)) b :=
        List.foldl_ext _ _ b hmem
      rw [hext, ih]
      simp only [List.foldl_cons, List.foldl_nil]
      have : (l ++ [a]).getD l.length d = a := by
        rw [List.getD_eq_getElem?_getD, List.getElem?_append_right (le_refl _)]
        simp
      rw [this]

theorem queryStep_foldl_filter (s e : Int) (l : List Chunk)
    (acc : List Chunk) :
    l.foldl (queryStep s e) acc =
      acc ++ l.filter (fun c => decide (c.start_timestamp_ns ≠ 0 ∧
        s ≤ c.start_timestamp_ns ∧ c.start_timestamp_ns < e)) := by
  induction l generalizing acc with
  | nil => simp
  | cons c rest ih =>
      simp only [List.foldl_cons, List.filter_cons]
      by_cases h0 : c.start_timestamp_ns = 0
      · simp [queryStep, h0, ih]
      · by_cases hin : s ≤ c.start_timestamp_ns ∧ c.start_timestamp_ns < e
        · simp [queryStep, h0, hin, ih]
        · simp [queryStep, h0, hin, ih]

/-- C2: the history-range query returns exactly the chunks of the buffer
whose start timestamp `t` satisfies `s ≤ t < e`, skipping the slots whose
start timestamp is the 0 sentinel, in buffer scan order (`List.filter`
preserves that order). -/
theorem get_chunks_from_timestamp_filter (ctx : AudioStreamContext)
    (s e : Int) (hlen : ctx.history_buffer.length = ctx.history_capacity) :
    ctx.get_chunks_from_timestamp s e =
      ctx.history_buffer.filter (fun c => decide (c.start_timestamp_ns ≠ 0 ∧
        s ≤ c.start_timestamp_ns ∧ c.start_timestamp_ns < e)) := by
  have hfold : ctx.get_chunks_from_timestamp s e =
      ctx.history_buffer.foldl (queryStep s e) [] := by
    show (List.range ctx.history_capacity).foldl _ [] = _
    rw [← hlen]
    exact range_foldl_getD (queryStep s e) ctx.history_buffer
      (emptyChunk ctx.info) []
  rw [hfold, queryStep_foldl_filter]
  simp

/-- Witness for C2: on the spec's worked example, querying
`[1.5 s, 2.5 s)` returns exactly the chunk starting at 2 s. -/
theorem get_chunks_from_timestamp_filter_witness :
    ctxHist.history_buffer.length = ctxHist.history_capacity ∧
    ctxHist.get_chunks_from_timestamp 1500000000 2500000000 =
      [chunkAt 2000000000 2100000000] :=
  ⟨rfl,
    (get_chunks_from_timestamp_filter ctxHist 1500000000 2500000000
      rfl).trans (by decide)⟩

theorem avStep_foldl (l : List Chunk) (acc : Int × Int) :
    l.foldl avStep acc =
      (((l.filter (fun c => decide (c.start_timestamp_ns ≠ 0))).map
          Chunk.start_timestamp_ns).foldl min acc.1,
       ((l.filter (fun c => decide (c.start_timestamp_ns ≠ 0))).map
          Chunk.end_timestamp_ns).foldl max acc.2) := by
  induction l generalizing acc with
  | nil => simp
  | cons c rest ih =>
      by_cases h0 : c.start_timestamp_ns = 0
      · simp [avStep, h0, List.filter_cons, ih]
      · simp [avStep, h0, List.filter_cons, ih]

theorem foldl_min_char (xs : List Int) (a : Int) :
    (xs.foldl min a = a ∨ xs.foldl min a ∈ xs) ∧ xs.foldl min a ≤ a ∧
      ∀ x ∈ xs, xs.foldl min a ≤ x := by
  induction xs generalizing a with
  | nil => simp
  | cons x rest ih =>
      simp only [List.foldl_cons, List.mem_cons]
      obtain ⟨hmem, hle, hall⟩ := ih (min a x)
      refine ⟨?_, hle.trans (min_le_left _ _), ?_⟩
      · rcases hmem with h | h
        · rcases le_total a x with hax | hxa
          · exact Or.inl (by rw [h, min_eq_left hax])
          · exact Or.inr (Or.inl (by rw [h, min_eq_right hxa]))
        · exact Or.inr (Or.inr h)
      · intro y hy
        rcases hy with rfl | hy
        · exact hle.trans (min_le_right _ _)
        · exact hall y hy

theorem foldl_max_char (xs : List Int) (a : Int) :
    (xs.foldl max a = a ∨ xs.foldl max a ∈ xs) ∧ a ≤ xs.foldl max a ∧
      ∀ x ∈ xs, x ≤ xs.foldl max a := by
  induction xs generalizing a with
  | nil => simp
  | cons x rest ih =>
      simp only [List.foldl_cons, List.mem_cons]
      obtain ⟨hmem, hle, hall⟩ := ih (max a x)
      refine ⟨?_, (le_max_left _ _).trans hle, ?_⟩
      · rcases hmem with h | h
        · rcases le_total a x with hax | hxa
          · exact Or.inr (Or.inl (by rw [h, max_eq_right hax]))
          · exact Or.inl (by rw [h, max_eq_left hxa])
        · exact Or.inr (Or.inr h)
      · intro y hy
        rcases hy with rfl | hy
        · exact (le_max_right _ _).trans hle
        · exact hall y hy

theorem available_time_range_eval (ctx : AudioStreamContext)
    (hlen : ctx.history_buffer.length = ctx.history_capacity) :
    ctx.get_available_time_range =
      (let p := ctx.history_buffer.foldl avStep (int64Max, 0)
       if p.1 = int64Max then (0, 0) else p) := by
  have hfold : (List.range ctx.history_capacity).foldl
      (fun (acc : Int × Int) i =>
        let chunk := ctx.history_buffer.getD i (emptyChunk ctx.info)
        if chunk.start_timestamp_ns = 0 then acc
        else (min acc.1 chunk.start_timestamp_ns,
              max acc.2 chunk.end_timestamp_ns)) (int64Max, 0) =
      ctx.history_buffer.foldl avStep (int64Max, 0) := by
    rw [← hlen]
    exact range_foldl_getD avStep ctx.history_buffer (emptyChunk ctx.info) _
  show (let p := (List.range ctx.history_capacity).foldl _ (int64Max, 0)
        if p.1 = int64Max then (0, 0) else p) = _
  rw [hfold]

/-- Counterexample to C4 as stated: on a buffer whose only chunk has
start −10 ns and end −5 ns, the code returns `(-10, 0)` (the `newest`
accumulator starts at 0 and `max 0 (-5) = 0`), not the claimed
`(min start, max end) = (-10, -5)`. -/
theorem available_time_range_counterexample :
    ctxNeg.get_available_time_range = (-10, 0) ∧
    claimedAvailableRange ctxNeg = (-10, -5) ∧
    ctxNeg.get_available_time_range ≠ claimedAvailableRange ctxNeg :=
  ⟨by decide, by decide, by decide⟩

/-- C4 (amended): `get_available_time_range` returns `(0, 0)` when every
slot is empty; and whenever some non-empty slot has start timestamp below
`INT64_MAX` and some non-empty slot has a nonnegative end timestamp, it
returns (minimum start timestamp, maximum end timestamp) over the non-empty
slots.  (Without those side conditions the code returns `max 0` of the end
timestamps as second component, and collapses to `(0, 0)` when the minimum
start equals `INT64_MAX`.) -/
theorem available_time_range_amended (ctx : AudioStreamContext)
    (hlen : ctx.history_buffer.length = ctx.history_capacity) :
    (nonEmptySlots ctx = [] → ctx.get_available_time_range = (0, 0)) ∧
    (∀ cm ∈ nonEmptySlots ctx, cm.start_timestamp_ns < int64Max →
     ∀ ce ∈ nonEmptySlots ctx, 0 ≤ ce.end_timestamp_ns →
      ((∃ c ∈ nonEmptySlots ctx,
          ctx.get_available_time_range.1 = c.start_timestamp_ns) ∧
       (∀ c ∈ nonEmptySlots ctx,
          ctx.get_available_time_range.1 ≤ c.start_timestamp_ns) ∧
       (∃ c ∈ nonEmptySlots ctx,
          ctx.get_available_time_range.2 = c.end_timestamp_ns) ∧
       (∀ c ∈ nonEmptySlots ctx,
          c.end_timestamp_ns ≤ ctx.get_available_time_range.2))) := by
  have heval := available_time_range_eval ctx hlen
  rw [avStep_foldl] at heval
  set NE := nonEmptySlots ctx with hNE
  have hfilter : ctx.history_buffer.filter
      (fun c => decide (c.start_timestamp_ns ≠ 0)) = NE := rfl
  rw [hfilter] at heval
  constructor
  · intro hempty
    rw [heval, hempty]
    simp
  · intro cm hcm hcmlt ce hce hcege
    obtain ⟨hminmem, _, hminall⟩ :=
      foldl_min_char (NE.map Chunk.start_timestamp_ns) int64Max
    obtain ⟨hmaxmem, hmaxge, hmaxall⟩ :=
      foldl_max_char (NE.map Chunk.end_timestamp_ns) 0
    set M := (NE.map Chunk.start_timestamp_ns).foldl min int64Max with hM
    set X := (NE.map Chunk.end_timestamp_ns).foldl max 0 with hX
    have hMlt : M < int64Max :=
      lt_of_le_of_lt (hminall _ (List.mem_map_of_mem _ hcm)) hcmlt
    have hMne : M ≠ int64Max := ne_of_lt hMlt
    have hres : ctx.get_available_time_range = (M, X) := by
      rw [heval]
      simp only []
      rw [if_neg hMne]
    have hMmem : ∃ c ∈ NE, M = c.start_timestamp_ns := by
      rcases hminmem with h | h
      · exact absurd h hMne
      · obtain ⟨c, hcmem, hceq⟩ := List.mem_map.mp h
        exact ⟨c, hcmem, hceq.symm⟩
    have hXmem : ∃ c ∈ NE, X = c.end_timestamp_ns := by
      rcases hmaxmem with h | h
      · have hcele : ce.end_timestamp_ns ≤ X :=
          hmaxall _ (List.mem_map_of_mem _ hce)
        have : ce.end_timestamp_ns = X := le_antisymm hcele (h ▸ hcege)
        exact ⟨ce, hce, this.symm⟩
      · obtain ⟨c, hcmem, hceq⟩ := List.mem_map.mp h
        exact ⟨c, hcmem, hceq.symm⟩
    refine ⟨?_, ?_, ?_, ?_⟩
    · rw [hres]; exact hMmem
    · intro c hc; rw [hres]
      exact hminall _ (List.mem_map_of_mem _ hc)
    · rw [hres]; exact hXmem
    · intro c hc; rw [hres]
      exact hmaxall _ (List.mem_map_of_mem _ hc)

/-- Witness for the amended C4: on the spec's worked example (chunks at
1 s, 2 s, 3 s with 100 ms duration) the computed range bounds every
non-empty slot's start timestamp from below, as the amended claim states. -/
theorem available_time_range_amended_witness :
    ctxHist.history_buffer.length = ctxHist.history_capacity ∧
    chunkAt 1000000000 1100000000 ∈ nonEmptySlots ctxHist ∧
    (∀ c ∈ nonEmptySlots ctxHist,
      ctxHist.get_available_time_range.1 ≤ c.start_timestamp_ns) := by
  refine ⟨rfl, by decide, ?_⟩
  have h := (available_time_range_amended ctxHist rfl).2
    (chunkAt 1000000000 1100000000) (by decide) (by decide)
    (chunkAt 1000000000 1100000000) (by decide) (by decide)
  exact h.2.1

/-- C3: the sample timestamp is the anchored wall-clock start time plus
`E + i/R` seconds converted to nanoseconds: it differs from the exact real
value by less than one nanosecond, and at `R = 44100`, `E = 0`, `i = 44100`
it equals the anchor plus exactly `10^9` ns (well within 1 µs). -/
theorem calculate_sample_timestamp_correct (ctx : AudioStreamContext)
    (E : ℚ) (i : Nat) (hR : 0 < ctx.info.sample_rate_hz) (hE : 0 ≤ E) :
    |((calculate_sample_timestamp ctx E i : Int) : ℚ) -
        ((ctx.stream_start_time_ns : ℚ) +
          (E + (i : ℚ) / (ctx.info.sample_rate_hz : ℚ)) * 1000000000)| < 1 ∧
    (ctx.info.sample_rate_hz = 44100 →
      calculate_sample_timestamp ctx 0 44100 =
        ctx.stream_start_time_ns + 1000000000) := by
  constructor
  · simp only [calculate_sample_timestamp, secondsToNs, ratTrunc, mul_one_div]
    set y : ℚ :=
      (E + (i : ℚ) / (ctx.info.sample_rate_hz : ℚ)) * 1000000000 with hy
    have hy0 : (0 : ℚ) ≤ y := by
      apply mul_nonneg
      · exact add_nonneg hE (div_nonneg (Nat.cast_nonneg i) (Nat.cast_nonneg _))
      · norm_num
    rw [if_pos hy0]
    push_cast
    rw [abs_lt]
    constructor
    · have := Int.lt_floor_add_one y
      linarith
    · have := Int.floor_le y
      linarith
  · intro hrate
    simp only [calculate_sample_timestamp, secondsToNs, ratTrunc, hrate]
    norm_num

/-- Witness for C3: on a context anchored at 5 ns with rate 44100 Hz,
sample 44100 of a delivery at elapsed time 0 is stamped exactly 1 s after
the anchor. -/
theorem calculate_sample_timestamp_correct_witness :
    0 < ctxAnchor.info.sample_rate_hz ∧ (0 : ℚ) ≤ 0 ∧
    calculate_sample_timestamp ctxAnchor 0 44100 =
      ctxAnchor.stream_start_time_ns + 1000000000 :=
  ⟨by decide, le_refl 0,
    (calculate_sample_timestamp_correct ctxAnchor 0 44100 (by decide)
      (le_refl 0)).2 rfl⟩

/-- C5: when the input buffer is absent or recording is disabled, the
audio callback returns `paContinue` and the whole stream context — anchor
state, working buffer, accumulated count, chunk start timestamp, queue and
history — is returned unchanged. -/
theorem audio_callback_early_return (inputBuffer : Option (List Int))
    (framesPerBuffer : Nat) (adc : ℚ) (now_ns : Int)
    (ctx : AudioStreamContext)
    (h : inputBuffer = none ∨ ctx.is_recording = false) :
    AudioCallback inputBuffer framesPerBuffer adc now_ns ctx =
      (paContinue, ctx) := by
  rcases h with h | h
  · rw [h]
    rfl
  · cases inputBuffer with
    | none => rfl
    | some input => simp [AudioCallback, h]

/-- Witness for C5: a callback delivering two frames to a context whose
recording flag is off returns `paContinue` and the context unchanged. -/
theorem audio_callback_early_return_witness :
    (some [1, 2] = (none : Option (List Int)) ∨ ctxStopped.is_recording = false) ∧
    AudioCallback (some [1, 2]) 2 0 7 ctxStopped = (paContinue, ctxStopped) :=
  ⟨Or.inr rfl,
    audio_callback_early_return (some [1, 2]) 2 0 7 ctxStopped (Or.inr rfl)⟩

/-! ### Encoder theorems (C6-C10) -/

theorem encodeFrames_buffer_lt {σ : Type} (M : CodecModel σ) (fuel : Nat)
    (spf fs nc : Nat) (hspf : 0 < spf) :
    ∀ (iterFuel : Nat) (s : σ) (frame : List (List Int)) (buf out : List Int)
      (log : List String), buf.length ≤ iterFuel →
      (encodeFrames M fuel spf fs nc iterFuel s frame buf out log).2.2.2.2.2 = none →
      (encodeFrames M fuel spf fs nc iterFuel s frame buf out log).2.2.1.length < spf := by
  intro iterFuel
  induction iterFuel with
  | zero =>
      intro s frame buf out log hlen _
      show buf.length < spf
      omega
  | succ n ih =>
      intro s frame buf out log hlen herr
      simp only [encodeFrames] at herr ⊢
      by_cases hge : spf ≤ buf.length
      · rw [if_pos hge] at herr ⊢
        by_cases hsend :
            (M.send_frame s (some (deinterleave_samples buf fs nc))).2 < 0
        · rw [if_pos hsend] at herr
          simp at herr
        · rw [if_neg hsend] at herr ⊢
          refine ih _ _ _ _ _ ?_ herr
          have hdrop := List.length_drop spf buf
          omega
      · rw [if_neg hge] at herr ⊢
        show buf.length < spf
        omega

/-- C6: immediately after a successful encode call on a Ready encoder,
the accumulation buffer holds strictly fewer samples than one full frame
(frame sample count × channel count): every complete frame was drained. -/
theorem encode_buffer_invariant {σ : Type} (M : CodecModel σ) (fuel : Nat)
    (st : MP3EncoderState σ) (samples : List Int) (s : σ)
    (frame : List (List Int)) (hctx : st.encoder_ctx = some s)
    (hframe : st.frame = some frame)
    (hspf : 0 < st.frame_size * st.num_channels)
    (hok : (encode_mp3_samples M fuel st samples).2.2.2 = none) :
    (encode_mp3_samples M fuel st samples).1.buffer.length <
      st.frame_size * st.num_channels := by
  simp only [encode_mp3_samples, hctx, hframe] at hok ⊢
  exact encodeFrames_buffer_lt M fuel _ _ _ hspf _ _ _ _ _ _ (le_refl _) hok

/-- Witness for C6: encoding three samples against a two-samples-per-frame
Ready encoder succeeds and leaves a one-sample (sub-frame) buffer. -/
theorem encode_buffer_invariant_witness :
    readyState.encoder_ctx = some 0 ∧ readyState.frame = some [[0, 0]] ∧
    0 < readyState.frame_size * readyState.num_channels ∧
    (encode_mp3_samples okCodec 4 readyState [1, 2, 3]).2.2.2 = none ∧
    (encode_mp3_samples okCodec 4 readyState [1, 2, 3]).1.buffer.length <
      readyState.frame_size * readyState.num_channels :=
  ⟨rfl, rfl, by decide, by decide,
    encode_buffer_invariant okCodec 4 readyState [1, 2, 3] 0 [[0, 0]]
      rfl rfl (by decide) (by decide)⟩

/-- C7: encoding on an encoder whose initialization has not succeeded
fails with the explicit "MP3 encoder not initialized" error, produces no
output and no log, and returns the state unchanged (the C++ throws before
touching any field). -/
theorem encode_uninitialized {σ : Type} (M : CodecModel σ) (fuel : Nat)
    (st : MP3EncoderState σ) (samples : List Int)
    (huninit : st.encoder_ctx = none ∨ st.frame = none) :
    encode_mp3_samples M fuel st samples =
      (st, [], [], some ("MP3 encoder not initialized")) := by
  rcases huninit with h | h
  · cases hf : st.frame <;> simp [encode_mp3_samples, h, hf]
  · cases hc : st.encoder_ctx <;> simp [encode_mp3_samples, h, hc]

/-- Witness for C7: encoding on the cleanup-baseline state fails with the
precondition error and leaves the state unchanged. -/
theorem encode_uninitialized_witness :
    (uninitState.encoder_ctx = none ∨ uninitState.frame = none) ∧
    encode_mp3_samples toyCodec 4 uninitState [1, 2] =
      (uninitState, [], [], some ("MP3 encoder not initialized")) :=
  ⟨Or.inl rfl,
    encode_uninitialized toyCodec 4 uninitState [1, 2] (Or.inl rfl)⟩

/-- Counterexample to C8 as stated ("encode never fails on a negative codec
response"): with a codec whose frame submission reports status −1, encode
on a Ready state with a full frame's worth of samples fails. -/
theorem encode_negative_response_counterexample :
    (encode_mp3_samples sendFailCodec 4 readyState [1, 2]).2.2.2 =
      some ("Error sending frame to MP3 encoder") := by decide

theorem drainPackets_final_code {σ : Type} (M : CodecModel σ)
    (hrecv : ∀ t, (M.receive_packet t).2.1 = AVERROR_EAGAIN ∨
      (M.receive_packet t).2.1 = AVERROR_EOF ∨ (M.receive_packet t).2.1 = 0) :
    ∀ (fuel : Nat) (s : σ) (acc : List Int),
      (drainPackets M fuel s acc).2.2 = AVERROR_EAGAIN ∨
      (drainPackets M fuel s acc).2.2 = AVERROR_EOF := by
  intro fuel
  induction fuel with
  | zero => intro s acc; left; rfl
  | succ n ih =>
      intro s acc
      simp only [drainPackets]
      by_cases h0 : (M.receive_packet s).2.1 = 0
      · rw [if_pos h0]
        exact ih _ _
      · rw [if_neg h0]
        rcases hrecv s with h | h | h
        · exact Or.inl h
        · exact Or.inr h
        · exact absurd h h0

theorem encodeFrames_no_fail {σ : Type} (M : CodecModel σ)
    (fuel spf fs nc : Nat) (hsend : ∀ t f, 0 ≤ (M.send_frame t f).2) :
    ∀ (iterFuel : Nat) (s : σ) (frame : List (List Int)) (buf out : List Int)
      (log : List String),
      (encodeFrames M fuel spf fs nc iterFuel s frame buf out log).2.2.2.2.2 = none := by
  intro iterFuel
  induction iterFuel with
  | zero => intro s frame buf out log; rfl
  | succ n ih =>
      intro s frame buf out log
      simp only [encodeFrames]
      by_cases hge : spf ≤ buf.length
      · rw [if_pos hge]
        have hns : ¬ (M.send_frame s (some (deinterleave_samples buf fs nc))).2 < 0 :=
          not_lt.mpr (hsend _ _)
        rw [if_neg hns]
        exact ih _ _ _ _ _
      · rw [if_neg hge]

theorem encodeFrames_log_unchanged {σ : Type} (M : CodecModel σ)
    (fuel spf fs nc : Nat) (hsend : ∀ t f, 0 ≤ (M.send_frame t f).2)
    (hrecv : ∀ t, (M.receive_packet t).2.1 = AVERROR_EAGAIN ∨
      (M.receive_packet t).2.1 = AVERROR_EOF ∨ (M.receive_packet t).2.1 = 0) :
    ∀ (iterFuel : Nat) (s : σ) (frame : List (List Int)) (buf out : List Int)
      (log : List String),
      (encodeFrames M fuel spf fs nc iterFuel s frame buf out log).2.2.2.2.1 = log := by
  intro iterFuel
  induction iterFuel with
  | zero => intro s frame buf out log; rfl
  | succ n ih =>
      intro s frame buf out log
      simp only [encodeFrames]
      by_cases hge : spf ≤ buf.length
      · rw [if_pos hge]
        have hns : ¬ (M.send_frame s (some (deinterleave_samples buf fs nc))).2 < 0 :=
          not_lt.mpr (hsend _ _)
        rw [if_neg hns]
        have hcode := drainPackets_final_code M hrecv fuel
          (M.send_frame s (some (deinterleave_samples buf fs nc))).1 []
        have hlog : ¬ ((drainPackets M fuel
            (M.send_frame s (some (deinterleave_samples buf fs nc))).1 []).2.2 ≠
              AVERROR_EAGAIN ∧
            (drainPackets M fuel
            (M.send_frame s (some (deinterleave_samples buf fs nc))).1 []).2.2 ≠
              AVERROR_EOF) := by
          rcases hcode with h | h
          · exact fun hc => hc.1 h
          · exact fun hc => hc.2 h
        rw [if_neg hlog]
        exact ih _ _ _ _ _
      · rw [if_neg hge]

/-- C8 (amended): during encode in the Ready state, failure arises only
from frame submission: if the codec reports a nonnegative status for every
submitted frame, encode succeeds regardless of the output-polling statuses;
and when every nonzero polling status is "not enough data yet"
(`AVERROR(EAGAIN)`) or end-of-stream (`AVERROR_EOF`), nothing is logged
while encoding continues.  (As stated the claim is false: a negative
status from `avcodec_send_frame` makes encode throw.) -/
theorem encode_negative_response_amended {σ : Type} (M : CodecModel σ)
    (fuel : Nat) (st : MP3EncoderState σ) (samples : List Int) (s : σ)
    (frame : List (List Int)) (hctx : st.encoder_ctx = some s)
    (hframe : st.frame = some frame)
    (hsend : ∀ t f, 0 ≤ (M.send_frame t f).2) :
    (encode_mp3_samples M fuel st samples).2.2.2 = none ∧
    ((∀ t, (M.receive_packet t).2.1 = AVERROR_EAGAIN ∨
        (M.receive_packet t).2.1 = AVERROR_EOF ∨ (M.receive_packet t).2.1 = 0) →
      (encode_mp3_samples M fuel st samples).2.2.1 = []) := by
  constructor
  · simp only [encode_mp3_samples, hctx, hframe]
    exact encodeFrames_no_fail M _ _ _ _ hsend _ _ _ _ _ _
  · intro hrecv
    simp only [encode_mp3_samples, hctx, hframe]
    exact encodeFrames_log_unchanged M _ _ _ _ hsend hrecv _ _ _ _ _ _

/-- Witness for the amended C8: with a codec that accepts every frame and
always answers "not enough data yet" when polled, encoding a full frame
neither fails nor logs. -/
theorem encode_negative_response_amended_witness :
    readyState.encoder_ctx = some 0 ∧ readyState.frame = some [[0, 0]] ∧
    (encode_mp3_samples okCodec 4 readyState [1, 2]).2.2.2 = none ∧
    (encode_mp3_samples okCodec 4 readyState [1, 2]).2.2.1 = [] := by
  have h := encode_negative_response_amended okCodec 4 readyState [1, 2] 0
    [[0, 0]] rfl rfl (fun t f => le_refl 0)
  exact ⟨rfl, rfl, h.1, h.2 (fun t => Or.inl rfl)⟩

theorem flushDrain_count {σ : Type} (M : CodecModel σ) :
    ∀ (fuel : Nat) (s : σ) (n : Nat),
      (flushDrain M fuel s n).2 = n + (collectPackets M fuel s).length := by
  intro fuel
  induction fuel with
  | zero => intro s n; simp [flushDrain, collectPackets]
  | succ k ih =>
      intro s n
      simp only [flushDrain, collectPackets]
      by_cases h0 : (M.receive_packet s).2.1 = 0
      · rw [if_pos h0, if_pos h0, ih]
        simp only [List.length_cons]
        omega
      · rw [if_neg h0, if_neg h0]
        simp

/-- C9: on a Ready encoder, flush submits the end-of-stream signal and
returns exactly the number of packets the codec then yields (a count that
is always ≥ 0); the sub-frame samples left in the accumulation buffer are
never submitted (the buffer is returned untouched) and their presence is
reported in the log — not as an error (flush has no failure outcome). -/
theorem flush_mp3_encoder_spec {σ : Type} (M : CodecModel σ) (fuel : Nat)
    (st : MP3EncoderState σ) (s : σ) (hctx : st.encoder_ctx = some s) :
    (flush_mp3_encoder M fuel st).2.1 =
      ((collectPackets M fuel (M.send_frame s none).1).length : Int) ∧
    0 ≤ (flush_mp3_encoder M fuel st).2.1 ∧
    (flush_mp3_encoder M fuel st).1.buffer = st.buffer ∧
    ("Discarded unbuffered samples at end of stream" ∈
        (flush_mp3_encoder M fuel st).2.2 ↔ st.buffer ≠ []) := by
  have hred : flush_mp3_encoder M fuel st =
      ({ st with encoder_ctx := some (flushDrain M fuel (M.send_frame s none).1 0).1 },
       ((flushDrain M fuel (M.send_frame s none).1 0).2 : Int),
       (if 0 < (flushDrain M fuel (M.send_frame s none).1 0).2 then
          ["MP3 encoder flushed remaining packets"] else []) ++
       (if st.buffer ≠ [] then
          ["Discarded unbuffered samples at end of stream"] else [])) := by
    simp only [flush_mp3_encoder, hctx]
  have e1 : (flush_mp3_encoder M fuel st).2.1 =
      ((flushDrain M fuel (M.send_frame s none).1 0).2 : Int) := by rw [hred]
  have e3 : (flush_mp3_encoder M fuel st).1.buffer = st.buffer := by rw [hred]
  have e4 : (flush_mp3_encoder M fuel st).2.2 =
      (if 0 < (flushDrain M fuel (M.send_frame s none).1 0).2 then
         ["MP3 encoder flushed remaining packets"] else []) ++
      (if st.buffer ≠ [] then
         ["Discarded unbuffered samples at end of stream"] else []) := by
    rw [hred]
  refine ⟨?_, ?_, e3, ?_⟩
  · rw [e1, flushDrain_count]
    simp
  · rw [e1]
    exact Int.natCast_nonneg _
  · rw [e4]
    by_cases hb : st.buffer = []
    · have h2 : (if st.buffer ≠ [] then
            ["Discarded unbuffered samples at end of stream"]
          else ([] : List String)) = [] := if_neg (fun h => h hb)
      rw [h2, List.append_nil]
      constructor
      · intro hmem
        exfalso
        by_cases hn : 0 < (flushDrain M fuel (M.send_frame s none).1 0).2
        · rw [if_pos hn] at hmem
          have heq : "Discarded unbuffered samples at end of stream" =
              "MP3 encoder flushed remaining packets" :=
            List.mem_singleton.mp hmem
          exact absurd heq (by decide)
        · rw [if_neg hn] at hmem
          exact List.not_mem_nil _ hmem
      · intro h
        exact absurd hb h
    · have h2 : (if st.buffer ≠ [] then
            ["Discarded unbuffered samples at end of stream"]
          else ([] : List String)) =
          ["Discarded unbuffered samples at end of stream"] := if_pos hb
      rw [h2]
      constructor
      · intro _
        exact hb
      · intro _
        exact List.mem_append.mpr (Or.inr (List.mem_singleton.mpr rfl))

/-- Witness for C9: flushing a Ready encoder whose codec still buffers two
packets (plus the end-of-stream delivery) returns count 3 ≥ 0, leaves the
one leftover sub-frame sample in place, and reports the discard. -/
theorem flush_mp3_encoder_spec_witness :
    flushState.encoder_ctx = some 2 ∧
    (flush_mp3_encoder toyCodec 10 flushState).2.1 = 3 ∧
    0 ≤ (flush_mp3_encoder toyCodec 10 flushState).2.1 ∧
    (flush_mp3_encoder toyCodec 10 flushState).1.buffer = flushState.buffer := by
  have h := flush_mp3_encoder_spec toyCodec 10 flushState 2 rfl
  refine ⟨rfl, ?_, h.2.1, h.2.2.1⟩
  rw [h.1]
  decide

/-- C10: on an encoder whose initialization has not succeeded, flush is
a silent no-op: it returns 0, logs nothing, leaves the state unchanged and
raises no error — unlike encode, it does not fail fast on the precondition
violation. -/
theorem flush_uninitialized {σ : Type} (M : CodecModel σ) (fuel : Nat)
    (st : MP3EncoderState σ) (hctx : st.encoder_ctx = none) :
    flush_mp3_encoder M fuel st = (st, 0, []) := by
  simp [flush_mp3_encoder, hctx]

/-- Witness for C10: flushing the cleanup-baseline state is a silent no-op
returning 0. -/
theorem flush_uninitialized_witness :
    uninitState.encoder_ctx = none ∧
    flush_mp3_encoder toyCodec 5 uninitState = (uninitState, 0, []) :=
  ⟨rfl, flush_uninitialized toyCodec 5 uninitState rfl⟩

end Microphone
